import Mathlib

/-!
Shallow embedding of the pr-throttler GitHub Action (TypeScript sources:
`src/config.ts`, `src/exclusions.ts`, `src/graphql.ts`, `src/main.ts`) and
verification of its specification claims.

JS numbers appearing as counts and thresholds are modelled as `Int` (the policy
values are only checked to be numbers, so they may be negative).  Falsy or
absent string values (`undefined`, or the empty string under the JS `||`
operator) are modelled as `Option String` with `none` for the falsy case.
-/

/-- Model of `PolicyRule` from `src/config.ts`: a record of two JS numbers,
`minMerged` and `allowedOpen`. -/
structure PolicyRule where
  minMerged : Int
  allowedOpen : Int
deriving Repr, DecidableEq

/-- Order imposed by the JS sort comparator `(a, b) => a.minMerged - b.minMerged`:
rules compare by `minMerged`, ascending. -/
def ruleLE (a b : PolicyRule) : Prop :=
  a.minMerged ≤ b.minMerged

instance : DecidableRel ruleLE :=
  fun a b => inferInstanceAs (Decidable (a.minMerged ≤ b.minMerged))

instance : IsTotal PolicyRule ruleLE :=
  ⟨fun a b => Int.le_total a.minMerged b.minMerged⟩

instance : IsTrans PolicyRule ruleLE :=
  ⟨fun _ _ _ h1 h2 => Int.le_trans h1 h2⟩

/-- Model of `[...policy].sort((a, b) => a.minMerged - b.minMerged)`.  JS
`Array.prototype.sort` is stable and here ascending; a stable sort under a fixed
total preorder has a unique result, modelled by the stable `List.insertionSort`. -/
def sortPolicy (policy : List PolicyRule) : List PolicyRule :=
  List.insertionSort ruleLE policy

/-- The selection loop of `allowedOpenFromPolicy` (`src/config.ts` lines 101-108):
`selected` starts at `sorted[0]`; each rule with `minMerged <= mergedCount`
replaces `selected`; the loop breaks at the first rule with `minMerged > mergedCount`. -/
def selectLoop (mergedCount : Int) (selected : PolicyRule) : List PolicyRule → PolicyRule
  | [] => selected
  | r :: rs => if r.minMerged ≤ mergedCount then selectLoop mergedCount r rs else selected

/-- Model of `allowedOpenFromPolicy` from `src/config.ts` lines 95-110.  The `[]`
branch is the `policy.length === 0` early return of `1` (`sortPolicy` is a
permutation, so it returns `[]` exactly on the empty policy). -/
def allowedOpenFromPolicy (policy : List PolicyRule) (mergedCount : Int) : Int :=
  match sortPolicy policy with
  | [] => 1
  | s0 :: rest => (selectLoop mergedCount s0 (s0 :: rest)).allowedOpen

/-- Resolution written from the spec's words, for comparison with
`allowedOpenFromPolicy` (claim C1): the `allowedOpen` of the rule with the
greatest `minMerged ≤ m`, ties broken by later position in the ascending
stably-sorted table; if `m` is below every rule's `minMerged`, the rule with the
smallest `minMerged` (the head of the sorted table). -/
def resolveSpec (policy : List PolicyRule) (m : Int) : Option Int :=
  let sorted := sortPolicy policy
  match (sorted.filter (fun r => r.minMerged ≤ m)).getLast? with
  | some r => some r.allowedOpen
  | none => sorted.head?.map PolicyRule.allowedOpen

/-- Count normalization of `src/main.ts` lines 116-117:
`currentIncluded = countDrafts ? true : !isDraft` and
`effectiveOpen = openCount - (currentIncluded ? 1 : 0)`. -/
def effectiveOpenCount (rawOpen : Int) (isDraft countDrafts : Bool) : Int :=
  let currentIncluded := if countDrafts then true else !isDraft
  rawOpen - (if currentIncluded then 1 else 0)

/-! ### Policy-input validation (`parseInputs`, `src/config.ts` lines 21-39) -/

/-- Parsed JSON values, as produced by `JSON.parse` (numbers restricted to the
integers the claims concern). -/
inductive JsonValue where
  | num (n : Int)
  | str (s : String)
  | bool (b : Bool)
  | null
  | arr (elems : List JsonValue)
  | obj (fields : List (String × JsonValue))
deriving Repr

/-- Property access `r.k` in JS on a parsed value: `some v` when `r` is an
object with field `k`, otherwise `undefined` (`none`). -/
def JsonValue.getField : JsonValue → String → Option JsonValue
  | .obj fields, k => (fields.find? (fun p => p.1 == k)).map (·.2)
  | _, _ => none

/-- Test `typeof r.k === "number"` in JS. -/
def isNumberField (r : JsonValue) (k : String) : Bool :=
  match r.getField k with
  | some (.num _) => true
  | _ => false

/-- Per-rule check of `parseInputs` (`src/config.ts` lines 29-36): each element
must have numeric `allowedOpen` and `minMerged`; the first offender raises
`Invalid policy rule at index i`. -/
def checkRules : List JsonValue → Nat → Except String (List PolicyRule)
  | [], _ => .ok []
  | r :: rs, idx =>
    if isNumberField r "allowedOpen" && isNumberField r "minMerged" then
      match r.getField "minMerged", r.getField "allowedOpen" with
      | some (.num mm), some (.num ao) =>
        (checkRules rs (idx + 1)).map (fun rest => ⟨mm, ao⟩ :: rest)
      | _, _ => .error ("Invalid policy rule at index " ++ toString idx)
    else .error ("Invalid policy rule at index " ++ toString idx)

/-- Policy-validation stage of `parseInputs` (`src/config.ts` lines 24-39),
applied to the result of `JSON.parse`: requires an array whose every element has
numeric `minMerged` and `allowedOpen`; nothing else is checked. -/
def parsePolicy (v : JsonValue) : Except String (List PolicyRule) :=
  match v with
  | .arr elems => checkRules elems 0
  | _ => .error "policy must be a JSON array"

/-! ### JS string primitives used by the code, on `List Char` semantics -/

/-- Model of JS `String.prototype.toLowerCase` (ASCII case mapping suffices for
the comparisons the code makes). -/
def jsToLower (s : String) : String :=
  String.mk (s.data.map Char.toLower)

/-- Model of JS `String.prototype.trim`. -/
def jsTrim (s : String) : String :=
  String.mk (((s.data.dropWhile Char.isWhitespace).reverse.dropWhile Char.isWhitespace).reverse)

/-- Regex test of `src/main.ts` line 45: whether the login ends with the
literal `[bot]`, case-insensitively. -/
def endsWithBotTag (author : String) : Bool :=
  List.isSuffixOf "[bot]".data (jsToLower author).data

/-- Model of JS `String.prototype.split("/")`. -/
def jsSplitSlash (s : String) : List String :=
  (s.data.splitOn '/').map String.mk

/-! ### Exclusions (`src/exclusions.ts`) -/

/-- Outcome of one team-membership REST call
(`octokit.rest.teams.getMembershipForUserInOrg`): a 200 response with state
`"active"`, a successful response not indicating active membership, or a thrown
error. -/
inductive TeamQueryResult where
  | active
  | notActive
  | failure
deriving Repr, DecidableEq

/-- Model of `parseTeamSlug` from `src/exclusions.ts` lines 9-13:
`slug.split("/").map(trim).filter(Boolean)` must have exactly two parts. -/
def parseTeamSlug (slug : String) : Option (String × String) :=
  let parts := ((jsSplitSlash slug).map jsTrim).filter (fun s => s ≠ "")
  match parts with
  | [org, team] => some (org, team)
  | _ => none

/-- Model of `isUserExcludedByList` from `src/exclusions.ts` lines 57-60:
case-insensitive membership of the login in the exclude list. -/
def isUserExcludedByList (excludeUsers : List String) (username : String) : Bool :=
  (excludeUsers.map (fun u => jsToLower u)).contains (jsToLower username)

/-- Model of `isUserExcludedByTeams` from `src/exclusions.ts` lines 15-55.
`query org team` is the membership-call outcome for the (fixed) author.
Invalid slugs are skipped; `active` excludes and stops; `notActive` continues;
a failure excludes when `skipOnFailure` is true and otherwise continues with
the next team. -/
def isUserExcludedByTeams (query : String → String → TeamQueryResult)
    (teamSlugs : List String) (skipOnFailure : Bool) : Bool :=
  match teamSlugs with
  | [] => false
  | slug :: rest =>
    match parseTeamSlug slug with
    | none => isUserExcludedByTeams query rest skipOnFailure
    | some st =>
      match query st.1 st.2 with
      | .active => true
      | .notActive => isUserExcludedByTeams query rest skipOnFailure
      | .failure =>
        if skipOnFailure then true else isUserExcludedByTeams query rest skipOnFailure

/-! ### The action run (`src/main.ts`) -/

/-- Model of `Inputs` from `src/config.ts` lines 8-19 (the `policy` already
validated).  Absent or falsy optional strings are `none`. -/
structure Inputs where
  policy : List PolicyRule
  closeComment : String
  excludeUsers : List String
  excludeTeams : List String
  countDrafts : Bool
  skipOnFailure : Bool
  revertToDraftOnReady : Bool
  backToDraftComment : String
  labelWhenClosed : Option String
  token : Option String

/-- Traced side-effecting API calls `run` can attempt.  Team-membership calls
happen inside `isUserExcludedByTeams`; logging is not modelled. -/
inductive ApiCall where
  | fetchCounts
  | createComment
  | updatePRToDraft
  | closePR
  | addLabels
deriving Repr, DecidableEq

/-- Enforcement branch selected once `effectiveOpen >= allowedOpen`
(`src/main.ts` line 134: revert-to-draft, otherwise close). -/
inductive Branch where
  | revertToDraft
  | closePR
deriving Repr, DecidableEq

/-- Model of `PRCounts` from `src/graphql.ts`. -/
structure Counts where
  openCount : Int
  mergedCount : Int

/-- One invocation's environment: event payload, configuration, and the outcome
of every external call the run might make (each is attempted at most once).
`prStateField` is `pr.state` (`none` when absent; the code defaults it to
`"open"`).  `addLabelsResult` is never consulted: a label failure only logs. -/
structure Env where
  eventName : String
  hasPullRequestPayload : Bool
  prNumber : Int
  prUserLogin : Option String
  prUserType : Option String
  prDraft : Bool
  prStateField : Option String
  payloadAction : Option String
  envGithubToken : Option String
  inputsResult : Except String Inputs
  teamQuery : String → String → TeamQueryResult
  countsResult : Except String Counts
  createCommentResult : Except String Unit
  updateToDraftResult : Except String Unit
  closePRResult : Except String Unit
  addLabelsResult : Except String Unit

/-- Result of one invocation: the `core.setOutput` writes in order, the traced
API calls in order, the enforcement branch entered (if any), and `some msg`
when the run ended in `core.setFailed` instead of a Decision. -/
structure RunResult where
  outputs : List (String × String)
  calls : List ApiCall
  branch : Option Branch
  failed : Option String

/-- Bot check of `src/main.ts` lines 44-45: platform type `"bot"`
(case-insensitive) or a login ending in `[bot]` (case-insensitive). -/
def isBotUser (authorType : Option String) (author : String) : Bool :=
  (match authorType with
   | some t => jsToLower t == "bot"
   | none => false)
  || endsWithBotTag author

/-- Revert-to-draft attempt (`src/main.ts` lines 164-185): failure is `skipped`
under `skipOnFailure`, otherwise fatal; success is `reverted_to_draft`. -/
def revertAttempt (inputs : Inputs) (env : Env) (baseOutputs : List (String × String))
    (calls : List ApiCall) : RunResult :=
  match env.updateToDraftResult with
  | .error msg =>
    if inputs.skipOnFailure then
      ⟨baseOutputs ++ [("decision", "skipped")], calls ++ [.updatePRToDraft],
        some .revertToDraft, none⟩
    else
      ⟨baseOutputs, calls ++ [.updatePRToDraft], some .revertToDraft,
        some ("Failed to revert PR to draft: " ++ msg)⟩
  | .ok _ =>
    ⟨baseOutputs ++ [("decision", "reverted_to_draft")], calls ++ [.updatePRToDraft],
      some .revertToDraft, none⟩

/-- Close attempt (`src/main.ts` lines 214-248): failure is `skipped` under
`skipOnFailure`, otherwise fatal; on success the label is attempted when
configured non-blank (its failure ignored) and the decision is `closed`. -/
def closeAttempt (inputs : Inputs) (env : Env) (baseOutputs : List (String × String))
    (calls : List ApiCall) : RunResult :=
  match env.closePRResult with
  | .error msg =>
    if inputs.skipOnFailure then
      ⟨baseOutputs ++ [("decision", "skipped")], calls ++ [.closePR], some .closePR, none⟩
    else
      ⟨baseOutputs, calls ++ [.closePR], some .closePR,
        some ("Failed to close PR: " ++ msg)⟩
  | .ok _ =>
    ⟨baseOutputs ++ [("decision", "closed")],
      calls ++ [.closePR] ++
        (match inputs.labelWhenClosed with
         | some lbl => if (jsTrim lbl).length > 0 then [ApiCall.addLabels] else []
         | none => []),
      some .closePR, none⟩

/-- Comparison and enforcement section of `run` (`src/main.ts` lines 112-252),
entered once counts were fetched.  Rendered comment bodies are not modelled
(no claim concerns the text, only whether each call is attempted). -/
def runCore (inputs : Inputs) (env : Env) (counts : Counts) : RunResult :=
  let effectiveOpen := effectiveOpenCount counts.openCount env.prDraft inputs.countDrafts
  let allowedOpen := allowedOpenFromPolicy inputs.policy counts.mergedCount
  let baseOutputs := [("openCount", toString effectiveOpen),
                      ("mergedCount", toString counts.mergedCount),
                      ("allowedOpen", toString allowedOpen)]
  if effectiveOpen ≥ allowedOpen then
    if !inputs.countDrafts && inputs.revertToDraftOnReady &&
        env.payloadAction == some "ready_for_review" then
      if (jsTrim inputs.backToDraftComment).length > 0 then
        match env.createCommentResult with
        | .error _ =>
          if inputs.skipOnFailure then
            ⟨baseOutputs ++ [("decision", "skipped")], [.fetchCounts, .createComment],
              some .revertToDraft, none⟩
          else
            revertAttempt inputs env baseOutputs [.fetchCounts, .createComment]
        | .ok _ => revertAttempt inputs env baseOutputs [.fetchCounts, .createComment]
      else
        revertAttempt inputs env baseOutputs [.fetchCounts]
    else
      match env.createCommentResult with
      | .error _ =>
        if inputs.skipOnFailure then
          ⟨baseOutputs ++ [("decision", "skipped")], [.fetchCounts, .createComment],
            some .closePR, none⟩
        else
          closeAttempt inputs env baseOutputs [.fetchCounts, .createComment]
      | .ok _ => closeAttempt inputs env baseOutputs [.fetchCounts, .createComment]
  else
    ⟨baseOutputs ++ [("decision", "ok")], [.fetchCounts], none, none⟩

/-- Model of `run` from `src/main.ts` lines 12-256 as a function of the
environment: the entry gates in source order, then the count fetch, then
`runCore`.  A thrown error is caught by the top-level handler and becomes
`core.setFailed` (the `failed` field). -/
def run (env : Env) : RunResult :=
  match env.inputsResult with
  | .error msg => ⟨[], [], none, some msg⟩
  | .ok inputs =>
    if env.eventName != "pull_request" && env.eventName != "pull_request_target" then
      ⟨[("decision", "skipped")], [], none, none⟩
    else if !env.hasPullRequestPayload then
      ⟨[("decision", "skipped")], [], none, none⟩
    else
      match env.prUserLogin with
      | none => ⟨[("decision", "skipped")], [], none, none⟩
      | some author =>
        if isBotUser env.prUserType author then
          ⟨[("decision", "skipped")], [], none, none⟩
        else
          match inputs.token.orElse (fun _ => env.envGithubToken) with
          | none => ⟨[("decision", "skipped")], [], none, none⟩
          | some _ =>
            if isUserExcludedByList inputs.excludeUsers author then
              ⟨[("decision", "skipped")], [], none, none⟩
            else if inputs.excludeTeams.length > 0 &&
                isUserExcludedByTeams env.teamQuery inputs.excludeTeams inputs.skipOnFailure then
              ⟨[("decision", "skipped")], [], none, none⟩
            else if !inputs.countDrafts && env.prDraft then
              ⟨[("decision", "ok")], [], none, none⟩
            else if env.prStateField.getD "open" != "open" then
              ⟨[("decision", "skipped")], [], none, none⟩
            else
              match env.countsResult with
              | .error msg =>
                if inputs.skipOnFailure then
                  ⟨[("decision", "skipped")], [.fetchCounts], none, none⟩
                else
                  ⟨[], [.fetchCounts], none, some msg⟩
              | .ok counts => runCore inputs env counts

/-- Values written to the `decision` output, in order. -/
def decisionOutputs (r : RunResult) : List String :=
  (r.outputs.filter (fun p => p.1 == "decision")).map (fun p => p.2)

/-- Number of times output `k` was set during a run. -/
def countKey (k : String) (r : RunResult) : Nat :=
  (r.outputs.filter (fun p => p.1 == k)).length

/-! ### Heap model for the frame claim about `allowedOpenFromPolicy` -/

/-- Heap of JS arrays of policy rules, addressed by reference (array index). -/
abbrev Store := List (List PolicyRule)

/-- Dereference an array (out-of-range reads as the empty array). -/
def storeRead (σ : Store) (r : Nat) : List PolicyRule :=
  (σ[r]?).getD []

/-- Allocate a fresh array holding `v`, returning the new heap and the reference. -/
def storeAlloc (σ : Store) (v : List PolicyRule) : Store × Nat :=
  (σ ++ [v], σ.length)

/-- Reference-passing embedding of `allowedOpenFromPolicy` (`src/config.ts`
lines 95-110), making the JS array operations explicit: `[...policy]` allocates
a fresh copy of the argument array, `.sort(...)` mutates that copy in place, and
the argument array itself is never written.  Returns the result together with
the final heap. -/
def allowedOpenFromPolicyRef (σ : Store) (policyRef : Nat) (mergedCount : Int) :
    Int × Store :=
  if (storeRead σ policyRef).length = 0 then (1, σ)
  else
    let p := storeAlloc σ (storeRead σ policyRef)
    let σ2 := p.1.set p.2 (List.insertionSort ruleLE (storeRead p.1 p.2))
    match storeRead σ2 p.2 with
    | [] => (1, σ2)
    | s0 :: rest => ((selectLoop mergedCount s0 (s0 :: rest)).allowedOpen, σ2)

/-! ### Concrete data for witnesses and counterexamples -/

/-- Example policy from the README: merged 0 allows 1 open, merged 1 allows 2,
merged 3 allows 3. -/
def samplePolicy : List PolicyRule :=
  [⟨0, 1⟩, ⟨1, 2⟩, ⟨3, 3⟩]

/-- Example configuration with the README policy and all defaults. -/
def sampleInputs : Inputs :=
  { policy := samplePolicy, closeComment := "close {author}",
    excludeUsers := [], excludeTeams := [], countDrafts := true,
    skipOnFailure := true, revertToDraftOnReady := true,
    backToDraftComment := "", labelWhenClosed := none, token := some "t" }

/-- Example environment passing every entry gate: raw open count 2 (including
the current PR) and no merged PRs, so the policy allows 1 open PR. -/
def sampleEnv : Env :=
  { eventName := "pull_request", hasPullRequestPayload := true, prNumber := 7,
    prUserLogin := some "alice", prUserType := some "User", prDraft := false,
    prStateField := some "open", payloadAction := some "opened",
    envGithubToken := none, inputsResult := .ok sampleInputs,
    teamQuery := fun _ _ => .notActive,
    countsResult := .ok ⟨2, 0⟩, createCommentResult := .ok (),
    updateToDraftResult := .ok (), closePRResult := .ok (),
    addLabelsResult := .ok () }

/-- Same run with a failing comment call. -/
def commentFailEnv : Env :=
  { sampleEnv with createCommentResult := .error "403" }

/-- Same run triggered by an unsupported event. -/
def pushEnv : Env :=
  { sampleEnv with eventName := "push" }

/-- A run whose input parsing failed. -/
def errEnv : Env :=
  { sampleEnv with inputsResult := .error "Failed to parse policy input" }

/-- Configuration with drafts not counted. -/
def draftInputs : Inputs :=
  { sampleInputs with countDrafts := false }

/-- A draft PR evaluated under `countDrafts = false`. -/
def draftEnv : Env :=
  { sampleEnv with prDraft := true, inputsResult := .ok draftInputs }

/-- Configuration with one excluded team. -/
def teamFailInputs : Inputs :=
  { sampleInputs with excludeTeams := ["acme/maintainers"] }

/-- A run whose team-membership query fails. -/
def teamFailEnv : Env :=
  { sampleEnv with inputsResult := .ok teamFailInputs, teamQuery := fun _ _ => .failure }

/-! ### Theorems about the policy table -/

theorem getLast?_getD_cons {α : Type} (a d : α) (l : List α) :
    ((a :: l).getLast?).getD d = (l.getLast?).getD a := by
  cases l with
  | nil => rfl
  | cons b t =>
    rw [List.getLast?_cons_cons]
    cases h : (b :: t).getLast? with
    | none => exact absurd (List.getLast?_eq_none_iff.mp h) (by simp)
    | some x => rfl

/-- On a list sorted ascending by `minMerged`, the selection loop returns the
last rule whose `minMerged ≤ m`, or the initial `selected` when no rule
qualifies. -/
theorem selectLoop_eq_getLast (m : Int) :
    ∀ (l : List PolicyRule) (sel : PolicyRule),
      l.Pairwise ruleLE →
      selectLoop m sel l =
        ((l.filter (fun r => r.minMerged ≤ m)).getLast?).getD sel
  | [], _, _ => rfl
  | r :: rs, sel, h => by
    rw [List.pairwise_cons] at h
    by_cases hr : r.minMerged ≤ m
    · rw [selectLoop, if_pos hr, selectLoop_eq_getLast m rs r h.2,
        List.filter_cons, if_pos (by simpa using hr), getLast?_getD_cons]
    · have hnil : rs.filter (fun r => r.minMerged ≤ m) = [] := by
        rw [List.filter_eq_nil_iff]
        intro x hx
        have hrx : r.minMerged ≤ x.minMerged := h.1 x hx
        simp only [decide_eq_true_eq]
        omega
      rw [selectLoop, if_neg hr, List.filter_cons, if_neg (by simpa using hr), hnil]
      rfl

/-- C1: for every non-empty policy table and every `mergedCount ≥ 0`,
`allowedOpenFromPolicy` returns the `allowedOpen` of the rule with the greatest
`minMerged ≤ m` (ties broken by later position in the ascending stably-sorted
table), and the smallest-`minMerged` rule when `m` is below every rule. -/
theorem allowedOpenFromPolicy_resolves_spec (policy : List PolicyRule) (m : Int)
    (hne : policy ≠ []) (_hm : 0 ≤ m) :
    some (allowedOpenFromPolicy policy m) = resolveSpec policy m := by
  have hsorted : (sortPolicy policy).Pairwise ruleLE :=
    List.sorted_insertionSort ruleLE policy
  unfold allowedOpenFromPolicy resolveSpec
  cases hsp : sortPolicy policy with
  | nil =>
    exfalso
    apply hne
    have hlen : policy.length = 0 := by
      rw [← (List.perm_insertionSort ruleLE policy).length_eq]
      exact congrArg List.length hsp
    exact List.length_eq_zero.mp hlen
  | cons s0 rest =>
    rw [hsp] at hsorted
    dsimp only
    rw [selectLoop_eq_getLast m (s0 :: rest) s0 hsorted]
    cases hl : ((s0 :: rest).filter (fun r => r.minMerged ≤ m)).getLast? with
    | none => simp
    | some r => simp

theorem allowedOpenFromPolicy_resolves_spec_witness :
    some (allowedOpenFromPolicy samplePolicy 2) = resolveSpec samplePolicy 2 :=
  allowedOpenFromPolicy_resolves_spec samplePolicy 2 (by decide) (by decide)

/-- C3: the effective open count subtracts 1 from the raw count exactly when
`countDrafts` is true or the current PR is not a draft, for every raw count and
both flags; in particular the three cases of the spec. -/
theorem effectiveOpenCount_spec (raw : Int) (isDraft countDrafts : Bool) :
    effectiveOpenCount raw isDraft countDrafts =
        raw - (if countDrafts || !isDraft then 1 else 0)
      ∧ effectiveOpenCount raw isDraft true = raw - 1
      ∧ effectiveOpenCount raw true false = raw
      ∧ effectiveOpenCount raw false false = raw - 1 := by
  cases isDraft <;> cases countDrafts <;> simp [effectiveOpenCount]

/-! ### Theorems about the heap model (frame effect) -/

theorem store_read_after (σ : Store) (v w : List PolicyRule) (ref : Nat)
    (href : ref < σ.length) :
    storeRead ((σ ++ [v]).set σ.length w) ref = storeRead σ ref := by
  unfold storeRead
  rw [List.getElem?_set_ne (by omega), List.getElem?_append_left href]

theorem store_read_alloc (σ : Store) (v w : List PolicyRule) :
    storeRead (σ ++ [v]) σ.length = v ∧
    storeRead ((σ ++ [v]).set σ.length w) σ.length = w := by
  constructor
  · unfold storeRead
    rw [List.getElem?_concat_length]
    rfl
  · unfold storeRead
    rw [List.getElem?_set_self (by simp)]
    rfl

/-- C10: `allowedOpenFromPolicy` never mutates its policy argument — after the
call the caller's array holds the same rules in the same order (the sort is
performed on a copy) — and the value returned agrees with the pure function. -/
theorem allowedOpenFromPolicyRef_frame (σ : Store) (ref : Nat) (m : Int)
    (href : ref < σ.length) :
    storeRead (allowedOpenFromPolicyRef σ ref m).2 ref = storeRead σ ref ∧
    (allowedOpenFromPolicyRef σ ref m).1 = allowedOpenFromPolicy (storeRead σ ref) m := by
  unfold allowedOpenFromPolicyRef
  by_cases h0 : (storeRead σ ref).length = 0
  · rw [if_pos h0]
    refine ⟨rfl, ?_⟩
    have he : storeRead σ ref = [] := List.length_eq_zero.mp h0
    rw [he]
    simp [allowedOpenFromPolicy, sortPolicy]
  · rw [if_neg h0]
    dsimp only [storeAlloc]
    have hv := (store_read_alloc σ (storeRead σ ref) (List.insertionSort ruleLE (storeRead σ ref))).1
    rw [hv]
    have hw := (store_read_alloc σ (storeRead σ ref) (List.insertionSort ruleLE (storeRead σ ref))).2
    rw [hw]
    have hframe := store_read_after σ (storeRead σ ref)
      (List.insertionSort ruleLE (storeRead σ ref)) ref href
    cases hms : List.insertionSort ruleLE (storeRead σ ref) with
    | nil =>
      exfalso
      have hlen : (storeRead σ ref).length = 0 := by
        rw [← (List.perm_insertionSort ruleLE (storeRead σ ref)).length_eq]
        exact congrArg List.length hms
      exact h0 hlen
    | cons s0 rest =>
      dsimp only
      rw [hms] at hframe
      refine ⟨hframe, ?_⟩
      unfold allowedOpenFromPolicy sortPolicy
      rw [hms]

theorem allowedOpenFromPolicyRef_frame_witness :
    storeRead (allowedOpenFromPolicyRef [[⟨0, 1⟩, ⟨3, 2⟩]] 0 5).2 0 =
        storeRead [[⟨0, 1⟩, ⟨3, 2⟩]] 0 ∧
    (allowedOpenFromPolicyRef [[⟨0, 1⟩, ⟨3, 2⟩]] 0 5).1 =
        allowedOpenFromPolicy (storeRead [[⟨0, 1⟩, ⟨3, 2⟩]] 0) 5 :=
  allowedOpenFromPolicyRef_frame [[⟨0, 1⟩, ⟨3, 2⟩]] 0 5 (by decide)

/-! ### Theorems about input validation -/

theorem isNumberField_iff (r : JsonValue) (k : String) :
    isNumberField r k = true ↔ ∃ n, JsonValue.getField r k = some (JsonValue.num n) := by
  unfold isNumberField
  cases h : JsonValue.getField r k with
  | none => simp
  | some v => cases v <;> simp

/-- A rule list passes `checkRules` exactly when every element has numeric
`allowedOpen` and `minMerged` fields; emptiness and signs are never examined. -/
theorem checkRules_ok_iff : ∀ (elems : List JsonValue) (idx : Nat),
    (∃ rules, checkRules elems idx = Except.ok rules) ↔
      ∀ r ∈ elems, isNumberField r "allowedOpen" = true ∧ isNumberField r "minMerged" = true
  | [], idx => by simp [checkRules]
  | r :: rs, idx => by
    unfold checkRules
    by_cases hb : isNumberField r "allowedOpen" = true ∧ isNumberField r "minMerged" = true
    · obtain ⟨ao, hao⟩ := (isNumberField_iff r "allowedOpen").mp hb.1
      obtain ⟨mm, hmm⟩ := (isNumberField_iff r "minMerged").mp hb.2
      rw [if_pos (by rw [hb.1, hb.2]; rfl), hmm, hao]
      dsimp only
      cases hrec : checkRules rs (idx + 1) with
      | error e =>
        have hfalse : ¬ ∀ x ∈ rs, isNumberField x "allowedOpen" = true ∧
            isNumberField x "minMerged" = true := by
          intro hall
          obtain ⟨rules, hr⟩ := (checkRules_ok_iff rs (idx + 1)).mpr hall
          rw [hrec] at hr
          cases hr
        simp only [Except.map, List.mem_cons]
        constructor
        · rintro ⟨rules, hr⟩
          cases hr
        · intro hall
          exact absurd (fun x hx => hall x (Or.inr hx)) hfalse
      | ok rules =>
        have htail : ∀ x ∈ rs, isNumberField x "allowedOpen" = true ∧
            isNumberField x "minMerged" = true :=
          (checkRules_ok_iff rs (idx + 1)).mp ⟨rules, hrec⟩
        simp only [Except.map, List.mem_cons]
        constructor
        · rintro _ x hx
          rcases hx with he | hx
          · subst he
            exact hb
          · exact htail x hx
        · intro _
          exact ⟨⟨mm, ao⟩ :: rules, rfl⟩
    · have hcond : (isNumberField r "allowedOpen" && isNumberField r "minMerged") = false := by
        cases h1 : isNumberField r "allowedOpen" <;> cases h2 : isNumberField r "minMerged" <;>
          simp_all
      rw [hcond]
      simp only [Bool.false_eq_true, if_false, List.mem_cons]
      constructor
      · rintro ⟨rules, hr⟩
        cases hr
      · intro hall
        exact absurd (hall r (Or.inl rfl)) hb

/-- C9 (amended): the policy validation of `parseInputs` succeeds exactly when
the parse yields an array whose every element has numeric `minMerged` and
`allowedOpen` — emptiness and negative values are accepted — and a parse-stage
error makes the run fail with no output set. -/
theorem parsePolicy_validation :
    (∀ v : JsonValue, (∃ rules, parsePolicy v = Except.ok rules) ↔
      ∃ elems, v = JsonValue.arr elems ∧ ∀ r ∈ elems,
        isNumberField r "allowedOpen" = true ∧ isNumberField r "minMerged" = true) ∧
    (∀ (env : Env) (msg : String), env.inputsResult = Except.error msg →
      (run env).outputs = [] ∧ (run env).failed = some msg) := by
  constructor
  · intro v
    cases v with
    | arr elems =>
      constructor
      · intro hok
        exact ⟨elems, rfl, (checkRules_ok_iff elems 0).mp hok⟩
      · rintro ⟨elems2, heq, hall⟩
        have he : elems = elems2 := by injection heq
        subst he
        exact (checkRules_ok_iff elems 0).mpr hall
    | num n => simp [parsePolicy]
    | str s => simp [parsePolicy]
    | bool b => simp [parsePolicy]
    | null => simp [parsePolicy]
    | obj fields => simp [parsePolicy]
  · intro env msg h
    unfold run
    rw [h]
    exact ⟨rfl, rfl⟩

theorem parsePolicy_validation_witness :
    (∃ rules, parsePolicy (JsonValue.arr []) = Except.ok rules) ∧
    ((run errEnv).outputs = [] ∧ (run errEnv).failed = some "Failed to parse policy input") :=
  ⟨(parsePolicy_validation.1 (JsonValue.arr [])).mpr ⟨[], rfl, by simp⟩,
   parsePolicy_validation.2 errEnv "Failed to parse policy input" rfl⟩

/-- C9 counterexample: the empty policy array and rules with negative numbers
pass validation, so no fatal configuration error is raised for them. -/
theorem parsePolicy_accepts_empty_and_negative :
    parsePolicy (JsonValue.arr []) = Except.ok [] ∧
    parsePolicy (JsonValue.arr [JsonValue.obj
        [("minMerged", JsonValue.num (-1)), ("allowedOpen", JsonValue.num (-2))]]) =
      Except.ok [⟨-1, -2⟩] :=
  ⟨rfl, rfl⟩

/-! ### Theorems about the run -/

/-- When every entry gate passes and counts are fetched, `run` reaches the
comparison-and-enforcement core. -/
theorem run_eq_runCore (env : Env) (inputs : Inputs) (counts : Counts) (author t : String)
    (hinp : env.inputsResult = .ok inputs)
    (hev : env.eventName = "pull_request" ∨ env.eventName = "pull_request_target")
    (hpayload : env.hasPullRequestPayload = true)
    (ha : env.prUserLogin = some author)
    (hbot : isBotUser env.prUserType author = false)
    (ht : inputs.token.orElse (fun _ => env.envGithubToken) = some t)
    (hexcl : isUserExcludedByList inputs.excludeUsers author = false)
    (hteams : inputs.excludeTeams.length = 0 ∨
      isUserExcludedByTeams env.teamQuery inputs.excludeTeams inputs.skipOnFailure = false)
    (hgate : inputs.countDrafts = true ∨ env.prDraft = false)
    (hstate : env.prStateField.getD "open" = "open")
    (hcounts : env.countsResult = .ok counts) :
    run env = runCore inputs env counts := by
  have h1 : (env.eventName != "pull_request" && env.eventName != "pull_request_target") = false := by
    rcases hev with h | h <;> rw [h] <;> decide
  have h2 : (decide (inputs.excludeTeams.length > 0) &&
      isUserExcludedByTeams env.teamQuery inputs.excludeTeams inputs.skipOnFailure) = false := by
    rcases hteams with h | h <;> simp [h]
  have h3 : (!inputs.countDrafts && env.prDraft) = false := by
    rcases hgate with h | h <;> simp [h]
  have h4 : (env.prStateField.getD "open" != "open") = false := by
    rw [hstate]
    decide
  unfold run
  rw [hinp]
  simp only [h1, hpayload, ha, hbot, ht, hexcl, h2, h3, h4, hcounts, Bool.false_eq_true,
    if_false, Bool.not_true, ite_false, ite_true]

/-- Once the threshold is met, every path of the enforcement section selects a
branch and never reports `ok`. -/
theorem runCore_enforce_shape (inputs : Inputs) (env : Env) (counts : Counts)
    (hc : allowedOpenFromPolicy inputs.policy counts.mergedCount ≤
      effectiveOpenCount counts.openCount env.prDraft inputs.countDrafts) :
    decisionOutputs (runCore inputs env counts) ≠ ["ok"] ∧
    (runCore inputs env counts).branch.isSome = true := by
  unfold runCore revertAttempt closeAttempt
  rw [if_pos hc]
  repeat' split
  all_goals simp [decisionOutputs]

/-- Below the threshold the run reports `ok` and selects no branch. -/
theorem runCore_ok_shape (inputs : Inputs) (env : Env) (counts : Counts)
    (hc : effectiveOpenCount counts.openCount env.prDraft inputs.countDrafts <
      allowedOpenFromPolicy inputs.policy counts.mergedCount) :
    decisionOutputs (runCore inputs env counts) = ["ok"] ∧
    (runCore inputs env counts).branch = none := by
  unfold runCore
  rw [if_neg (not_le.mpr hc)]
  simp [decisionOutputs]

/-- C2: whenever an invocation passes all entry gates, the decision is `ok`
exactly when `effectiveOpen < allowedOpen`, and an enforcement branch (close or
revert-to-draft) is selected exactly when `effectiveOpen ≥ allowedOpen`. -/
theorem run_threshold_comparison (env : Env) (inputs : Inputs) (counts : Counts)
    (author t : String)
    (hinp : env.inputsResult = .ok inputs)
    (hev : env.eventName = "pull_request" ∨ env.eventName = "pull_request_target")
    (hpayload : env.hasPullRequestPayload = true)
    (ha : env.prUserLogin = some author)
    (hbot : isBotUser env.prUserType author = false)
    (ht : inputs.token.orElse (fun _ => env.envGithubToken) = some t)
    (hexcl : isUserExcludedByList inputs.excludeUsers author = false)
    (hteams : inputs.excludeTeams.length = 0 ∨
      isUserExcludedByTeams env.teamQuery inputs.excludeTeams inputs.skipOnFailure = false)
    (hgate : inputs.countDrafts = true ∨ env.prDraft = false)
    (hstate : env.prStateField.getD "open" = "open")
    (hcounts : env.countsResult = .ok counts) :
    (decisionOutputs (run env) = ["ok"] ↔
      effectiveOpenCount counts.openCount env.prDraft inputs.countDrafts <
        allowedOpenFromPolicy inputs.policy counts.mergedCount) ∧
    ((run env).branch.isSome = true ↔
      allowedOpenFromPolicy inputs.policy counts.mergedCount ≤
        effectiveOpenCount counts.openCount env.prDraft inputs.countDrafts) := by
  rw [run_eq_runCore env inputs counts author t hinp hev hpayload ha hbot ht hexcl hteams
    hgate hstate hcounts]
  by_cases hc : allowedOpenFromPolicy inputs.policy counts.mergedCount ≤
      effectiveOpenCount counts.openCount env.prDraft inputs.countDrafts
  · have hs := runCore_enforce_shape inputs env counts hc
    exact ⟨⟨fun h => absurd h hs.1, fun h => absurd h (not_lt.mpr hc)⟩,
      ⟨fun _ => hc, fun _ => hs.2⟩⟩
  · have hs := runCore_ok_shape inputs env counts (not_le.mp hc)
    exact ⟨⟨fun _ => not_le.mp hc, fun _ => hs.1⟩,
      ⟨fun h => absurd (hs.2 ▸ h) (by decide), fun h => absurd h hc⟩⟩

theorem run_threshold_comparison_witness :
    (decisionOutputs (run sampleEnv) = ["ok"] ↔
      effectiveOpenCount 2 false true < allowedOpenFromPolicy samplePolicy 0) ∧
    ((run sampleEnv).branch.isSome = true ↔
      allowedOpenFromPolicy samplePolicy 0 ≤ effectiveOpenCount 2 false true) :=
  run_threshold_comparison sampleEnv sampleInputs ⟨2, 0⟩ "alice" "t" rfl (Or.inl rfl) rfl rfl
    (by decide) rfl (by decide) (Or.inl rfl) (Or.inl rfl) rfl rfl

/-- C4 (amended): in an enforcement branch a comment failure never makes the run
fatal by itself, but its handling depends on `skipOnFailure`: when false the
failure is logged and the primary close or revert action is still attempted;
when true the run terminates with decision `skipped` without attempting the
primary action. -/
theorem run_comment_failure_behavior (env : Env) (inputs : Inputs) (counts : Counts)
    (author t msg : String)
    (hinp : env.inputsResult = .ok inputs)
    (hev : env.eventName = "pull_request" ∨ env.eventName = "pull_request_target")
    (hpayload : env.hasPullRequestPayload = true)
    (ha : env.prUserLogin = some author)
    (hbot : isBotUser env.prUserType author = false)
    (ht : inputs.token.orElse (fun _ => env.envGithubToken) = some t)
    (hexcl : isUserExcludedByList inputs.excludeUsers author = false)
    (hteams : inputs.excludeTeams.length = 0 ∨
      isUserExcludedByTeams env.teamQuery inputs.excludeTeams inputs.skipOnFailure = false)
    (hgate : inputs.countDrafts = true ∨ env.prDraft = false)
    (hstate : env.prStateField.getD "open" = "open")
    (hcounts : env.countsResult = .ok counts)
    (hcomment : env.createCommentResult = .error msg)
    (hc : allowedOpenFromPolicy inputs.policy counts.mergedCount ≤
      effectiveOpenCount counts.openCount env.prDraft inputs.countDrafts) :
    (inputs.skipOnFailure = false →
      ((run env).branch = some Branch.closePR → ApiCall.closePR ∈ (run env).calls) ∧
      ((run env).branch = some Branch.revertToDraft →
        ApiCall.updatePRToDraft ∈ (run env).calls)) ∧
    (inputs.skipOnFailure = true → ApiCall.createComment ∈ (run env).calls →
      decisionOutputs (run env) = ["skipped"] ∧ (run env).failed = none ∧
      ApiCall.closePR ∉ (run env).calls ∧
      ApiCall.updatePRToDraft ∉ (run env).calls) := by
  rw [run_eq_runCore env inputs counts author t hinp hev hpayload ha hbot ht hexcl hteams
    hgate hstate hcounts]
  unfold runCore revertAttempt closeAttempt
  rw [if_pos hc, hcomment]
  repeat' split
  all_goals simp_all [decisionOutputs]

theorem run_comment_failure_behavior_witness :
    (sampleInputs.skipOnFailure = false →
      ((run commentFailEnv).branch = some Branch.closePR →
        ApiCall.closePR ∈ (run commentFailEnv).calls) ∧
      ((run commentFailEnv).branch = some Branch.revertToDraft →
        ApiCall.updatePRToDraft ∈ (run commentFailEnv).calls)) ∧
    (sampleInputs.skipOnFailure = true →
      ApiCall.createComment ∈ (run commentFailEnv).calls →
      decisionOutputs (run commentFailEnv) = ["skipped"] ∧
      (run commentFailEnv).failed = none ∧
      ApiCall.closePR ∉ (run commentFailEnv).calls ∧
      ApiCall.updatePRToDraft ∉ (run commentFailEnv).calls) :=
  run_comment_failure_behavior commentFailEnv sampleInputs ⟨2, 0⟩ "alice" "t" "403" rfl
    (Or.inl rfl) rfl rfl (by decide) rfl (by decide) (Or.inl rfl) (Or.inl rfl) rfl rfl rfl
    (by decide)

/-- C4 counterexample: with `skipOnFailure = true` a failed comment call makes
the run terminate `skipped` without attempting the close, so the comment
failure is not always non-fatal for the enforcement attempt. -/
theorem run_comment_failure_skip_counterexample :
    decisionOutputs (run commentFailEnv) = ["skipped"] ∧
    (run commentFailEnv).branch = some Branch.closePR ∧
    ApiCall.closePR ∉ (run commentFailEnv).calls ∧
    ApiCall.updatePRToDraft ∉ (run commentFailEnv).calls := by decide

/-- C5 (amended): with `countDrafts = true`, raw open count 2 (including the
current PR) and `allowedOpen = 1`, the run computes `effectiveOpen = 1`, which
meets the `effectiveOpen ≥ allowedOpen` threshold, so the close branch is
entered and the run ends `closed` after a comment and a close call. -/
theorem run_scenario_raw2_enforces :
    effectiveOpenCount 2 false true = 1 ∧
    allowedOpenFromPolicy samplePolicy 0 = 1 ∧
    decisionOutputs (run sampleEnv) = ["closed"] ∧
    (run sampleEnv).branch = some Branch.closePR ∧
    (run sampleEnv).calls = [ApiCall.fetchCounts, ApiCall.createComment, ApiCall.closePR] := by
  decide

/-- C5 counterexample: in that scenario the decision is not `ok` and both a
comment and a close are attempted, contradicting the claimed `ok` outcome. -/
theorem run_scenario_raw2_not_ok :
    decisionOutputs (run sampleEnv) ≠ ["ok"] ∧
    ApiCall.createComment ∈ (run sampleEnv).calls ∧
    ApiCall.closePR ∈ (run sampleEnv).calls := by decide

/-- If any valid configured team slug has a failing membership query, the scan
under `skipOnFailure = true` reports the author as excluded. -/
theorem teams_failure_excludes (query : String → String → TeamQueryResult) :
    ∀ (slugs : List String) (slug : String) (st : String × String),
      slug ∈ slugs → parseTeamSlug slug = some st → query st.1 st.2 = .failure →
      isUserExcludedByTeams query slugs true = true
  | [], _, _, hmem, _, _ => absurd hmem (List.not_mem_nil _)
  | s :: rest, slug, st, hmem, hparse, hq => by
    unfold isUserExcludedByTeams
    rcases List.mem_cons.mp hmem with he | hm
    · subst he
      rw [hparse]
      dsimp only
      rw [hq]
      rfl
    · cases hp : parseTeamSlug s with
      | none =>
        dsimp only
        exact teams_failure_excludes query rest slug st hm hparse hq
      | some st2 =>
        dsimp only
        cases hq2 : query st2.1 st2.2 with
        | active => rfl
        | notActive => exact teams_failure_excludes query rest slug st hm hparse hq
        | failure => rfl

/-- With `skipOnFailure = false` a failing team query is skipped over: the scan
continues with the remaining teams. -/
theorem teams_failure_continues (query : String → String → TeamQueryResult)
    (slug : String) (st : String × String) (rest : List String)
    (hparse : parseTeamSlug slug = some st) (hq : query st.1 st.2 = .failure) :
    isUserExcludedByTeams query (slug :: rest) false =
      isUserExcludedByTeams query rest false := by
  conv_lhs => rw [isUserExcludedByTeams]
  rw [hparse]
  dsimp only
  rw [hq]
  rfl

/-- A run whose team scan reports the author as excluded terminates `skipped`
with no API call attempted. -/
theorem run_team_excluded_skips (env : Env) (inputs : Inputs) (author t : String)
    (hinp : env.inputsResult = .ok inputs)
    (hev : env.eventName = "pull_request" ∨ env.eventName = "pull_request_target")
    (hpayload : env.hasPullRequestPayload = true)
    (ha : env.prUserLogin = some author)
    (hbot : isBotUser env.prUserType author = false)
    (ht : inputs.token.orElse (fun _ => env.envGithubToken) = some t)
    (hexcl : isUserExcludedByList inputs.excludeUsers author = false)
    (hne : inputs.excludeTeams ≠ [])
    (hexcteams : isUserExcludedByTeams env.teamQuery inputs.excludeTeams
      inputs.skipOnFailure = true) :
    run env = ⟨[("decision", "skipped")], [], none, none⟩ := by
  have h1 : (env.eventName != "pull_request" && env.eventName != "pull_request_target") = false := by
    rcases hev with h | h <;> rw [h] <;> decide
  have h2 : (decide (inputs.excludeTeams.length > 0) &&
      isUserExcludedByTeams env.teamQuery inputs.excludeTeams inputs.skipOnFailure) = true := by
    rw [hexcteams]
    simp [List.length_pos.mpr hne]
  unfold run
  rw [hinp]
  simp only [h1, hpayload, ha, hbot, ht, hexcl, h2, Bool.false_eq_true, if_false,
    Bool.not_true, ite_false, ite_true]

/-- C6: a failing team-membership query excludes the author and (given the
earlier gates pass) ends the run `skipped` with no comment, close or revert
call when `skipOnFailure` is true, and is skipped over — the scan continues
with the next configured team — when `skipOnFailure` is false. -/
theorem team_check_failure_policy :
    (∀ (query : String → String → TeamQueryResult) (slugs : List String) (slug : String)
        (st : String × String), slug ∈ slugs → parseTeamSlug slug = some st →
        query st.1 st.2 = .failure → isUserExcludedByTeams query slugs true = true) ∧
    (∀ (query : String → String → TeamQueryResult) (slug : String) (st : String × String)
        (rest : List String), parseTeamSlug slug = some st → query st.1 st.2 = .failure →
        isUserExcludedByTeams query (slug :: rest) false =
          isUserExcludedByTeams query rest false) ∧
    (∀ (env : Env) (inputs : Inputs) (author t : String),
        env.inputsResult = .ok inputs →
        (env.eventName = "pull_request" ∨ env.eventName = "pull_request_target") →
        env.hasPullRequestPayload = true →
        env.prUserLogin = some author →
        isBotUser env.prUserType author = false →
        inputs.token.orElse (fun _ => env.envGithubToken) = some t →
        isUserExcludedByList inputs.excludeUsers author = false →
        inputs.excludeTeams ≠ [] →
        isUserExcludedByTeams env.teamQuery inputs.excludeTeams inputs.skipOnFailure = true →
        run env = ⟨[("decision", "skipped")], [], none, none⟩) :=
  ⟨teams_failure_excludes, teams_failure_continues, run_team_excluded_skips⟩

theorem team_check_failure_policy_witness :
    isUserExcludedByTeams (fun _ _ => TeamQueryResult.failure) ["acme/maintainers"] true = true ∧
    isUserExcludedByTeams (fun _ _ => TeamQueryResult.failure)
        ["acme/maintainers", "acme/admins"] false =
      isUserExcludedByTeams (fun _ _ => TeamQueryResult.failure) ["acme/admins"] false ∧
    run teamFailEnv = ⟨[("decision", "skipped")], [], none, none⟩ :=
  ⟨team_check_failure_policy.1 (fun _ _ => TeamQueryResult.failure) ["acme/maintainers"]
      "acme/maintainers" ("acme", "maintainers") (by decide) (by decide) rfl,
   team_check_failure_policy.2.1 (fun _ _ => TeamQueryResult.failure) "acme/maintainers"
      ("acme", "maintainers") ["acme/admins"] (by decide) rfl,
   team_check_failure_policy.2.2 teamFailEnv teamFailInputs "alice" "t" rfl (Or.inl rfl)
      rfl rfl (by decide) rfl (by decide) (by decide) (by decide)⟩

/-- C7: an invocation that reaches the draft gate (all earlier gates passed)
with `countDrafts = false` and a draft PR terminates with decision `ok` — not
`skipped` — fetching no counts and attempting no comment, close or revert. -/
theorem run_draft_gate_ok (env : Env) (inputs : Inputs) (author t : String)
    (hinp : env.inputsResult = .ok inputs)
    (hev : env.eventName = "pull_request" ∨ env.eventName = "pull_request_target")
    (hpayload : env.hasPullRequestPayload = true)
    (ha : env.prUserLogin = some author)
    (hbot : isBotUser env.prUserType author = false)
    (ht : inputs.token.orElse (fun _ => env.envGithubToken) = some t)
    (hexcl : isUserExcludedByList inputs.excludeUsers author = false)
    (hteams : inputs.excludeTeams.length = 0 ∨
      isUserExcludedByTeams env.teamQuery inputs.excludeTeams inputs.skipOnFailure = false)
    (hcd : inputs.countDrafts = false)
    (hdraft : env.prDraft = true) :
    run env = ⟨[("decision", "ok")], [], none, none⟩ := by
  have h1 : (env.eventName != "pull_request" && env.eventName != "pull_request_target") = false := by
    rcases hev with h | h <;> rw [h] <;> decide
  have h2 : (decide (inputs.excludeTeams.length > 0) &&
      isUserExcludedByTeams env.teamQuery inputs.excludeTeams inputs.skipOnFailure) = false := by
    rcases hteams with h | h <;> simp [h]
  have h3 : (!inputs.countDrafts && env.prDraft) = true := by
    rw [hcd, hdraft]
    rfl
  unfold run
  rw [hinp]
  simp only [h1, hpayload, ha, hbot, ht, hexcl, h2, h3, Bool.false_eq_true, if_false,
    Bool.not_true, ite_false, ite_true]

theorem run_draft_gate_ok_witness :
    run draftEnv = ⟨[("decision", "ok")], [], none, none⟩ :=
  run_draft_gate_ok draftEnv draftInputs "alice" "t" rfl (Or.inl rfl) rfl rfl (by decide)
    rfl (by decide) (Or.inl rfl) rfl rfl

/-- Output cardinalities for the comparison-and-enforcement core: `decision` is
set exactly once on non-fatal paths and never twice, and each of the three
numeric outputs is set exactly once on every path. -/
theorem runCore_outputs_cardinality (inputs : Inputs) (env : Env) (counts : Counts) :
    ((runCore inputs env counts).failed = none →
      countKey "decision" (runCore inputs env counts) = 1) ∧
    countKey "decision" (runCore inputs env counts) ≤ 1 ∧
    countKey "openCount" (runCore inputs env counts) = 1 ∧
    countKey "mergedCount" (runCore inputs env counts) = 1 ∧
    countKey "allowedOpen" (runCore inputs env counts) = 1 := by
  unfold runCore revertAttempt closeAttempt
  by_cases hc : allowedOpenFromPolicy inputs.policy counts.mergedCount ≤
      effectiveOpenCount counts.openCount env.prDraft inputs.countDrafts
  · rw [if_pos hc]
    repeat' split
    all_goals simp [countKey]
  · rw [if_neg hc]
    simp [countKey]

/-- Every run either reaches the comparison core (inputs parsed and counts
fetched) or terminates at an earlier gate with one of the four early results. -/
theorem run_cases (env : Env) :
    (∃ inputs counts, env.inputsResult = Except.ok inputs ∧
      env.countsResult = Except.ok counts ∧ run env = runCore inputs env counts) ∨
    (∃ msg, run env = ⟨[], [], none, some msg⟩) ∨
    run env = ⟨[("decision", "skipped")], [], none, none⟩ ∨
    run env = ⟨[("decision", "ok")], [], none, none⟩ ∨
    run env = ⟨[("decision", "skipped")], [ApiCall.fetchCounts], none, none⟩ ∨
    (∃ msg, run env = ⟨[], [ApiCall.fetchCounts], none, some msg⟩) := by
  have hM := run.eq_def env
  repeat' split at hM
  all_goals first
    | exact Or.inl ⟨_, _, by assumption, by assumption, hM⟩
    | exact Or.inr (Or.inl ⟨_, hM⟩)
    | exact Or.inr (Or.inr (Or.inl hM))
    | exact Or.inr (Or.inr (Or.inr (Or.inl hM)))
    | exact Or.inr (Or.inr (Or.inr (Or.inr (Or.inl hM))))
    | exact Or.inr (Or.inr (Or.inr (Or.inr (Or.inr ⟨_, hM⟩))))

/-- C8 (amended): on every run, `decision` is set exactly once when the run ends
in a Decision (and never twice even on fatal runs); the numeric outputs
`openCount`, `mergedCount` and `allowedOpen` are always set together, exactly
once on every run that reaches the threshold comparison (every execution of the
comparison core sets each of them once), and zero times on runs terminating at
an earlier gate: a run that sets them at all reached the comparison core. -/
theorem run_outputs_cardinality (env : Env) :
    ((run env).failed = none → countKey "decision" (run env) = 1) ∧
    countKey "decision" (run env) ≤ 1 ∧
    countKey "openCount" (run env) = countKey "mergedCount" (run env) ∧
    countKey "openCount" (run env) = countKey "allowedOpen" (run env) ∧
    (∀ (inputs : Inputs) (counts : Counts),
      countKey "openCount" (runCore inputs env counts) = 1 ∧
      countKey "mergedCount" (runCore inputs env counts) = 1 ∧
      countKey "allowedOpen" (runCore inputs env counts) = 1) ∧
    (countKey "openCount" (run env) = 0 ∨
      ∃ (inputs : Inputs) (counts : Counts),
        env.inputsResult = Except.ok inputs ∧ env.countsResult = Except.ok counts ∧
        run env = runCore inputs env counts) := by
  have hcore := fun (inputs : Inputs) (counts : Counts) =>
    runCore_outputs_cardinality inputs env counts
  have hnum : ∀ (inputs : Inputs) (counts : Counts),
      countKey "openCount" (runCore inputs env counts) = 1 ∧
      countKey "mergedCount" (runCore inputs env counts) = 1 ∧
      countKey "allowedOpen" (runCore inputs env counts) = 1 :=
    fun inputs counts =>
      ⟨(hcore inputs counts).2.2.1, (hcore inputs counts).2.2.2.1,
        (hcore inputs counts).2.2.2.2⟩
  rcases run_cases env with ⟨inputs, counts, hi, hcnt, hrun⟩ | ⟨msg, hrun⟩ | hrun |
    hrun | hrun | ⟨msg, hrun⟩
  · refine ⟨?_, ?_, ?_, ?_, hnum, Or.inr ⟨inputs, counts, hi, hcnt, hrun⟩⟩
    · rw [hrun]
      exact (hcore inputs counts).1
    · rw [hrun]
      exact (hcore inputs counts).2.1
    · rw [hrun, (hcore inputs counts).2.2.1, (hcore inputs counts).2.2.2.1]
    · rw [hrun, (hcore inputs counts).2.2.1, (hcore inputs counts).2.2.2.2]
  all_goals refine ⟨?_, ?_, ?_, ?_, hnum, Or.inl ?_⟩ <;> rw [hrun] <;> simp [countKey]

theorem run_outputs_cardinality_witness :
    ((run sampleEnv).failed = none → countKey "decision" (run sampleEnv) = 1) ∧
    countKey "decision" (run sampleEnv) ≤ 1 ∧
    countKey "openCount" (run sampleEnv) = countKey "mergedCount" (run sampleEnv) ∧
    countKey "openCount" (run sampleEnv) = countKey "allowedOpen" (run sampleEnv) ∧
    (∀ (inputs : Inputs) (counts : Counts),
      countKey "openCount" (runCore inputs sampleEnv counts) = 1 ∧
      countKey "mergedCount" (runCore inputs sampleEnv counts) = 1 ∧
      countKey "allowedOpen" (runCore inputs sampleEnv counts) = 1) ∧
    (countKey "openCount" (run sampleEnv) = 0 ∨
      ∃ (inputs : Inputs) (counts : Counts),
        sampleEnv.inputsResult = Except.ok inputs ∧
        sampleEnv.countsResult = Except.ok counts ∧
        run sampleEnv = runCore inputs sampleEnv counts) :=
  run_outputs_cardinality sampleEnv

/-- C8 counterexample: a run skipped at the event gate ends in a Decision with
`decision` set once but none of the numeric outputs set, so not every output is
set exactly once per run. -/
theorem run_early_skip_outputs_counterexample :
    (run pushEnv).failed = none ∧
    countKey "decision" (run pushEnv) = 1 ∧
    countKey "openCount" (run pushEnv) = 0 ∧
    countKey "mergedCount" (run pushEnv) = 0 ∧
    countKey "allowedOpen" (run pushEnv) = 0 := by decide
